import Mathlib

/-!
Verification of the span-decoding / classification post-processing pipeline
of the `rn-expirement` repository (`src/TransformerOps.ts`,
`src/unnamed/part_000`, `src/unnamed/part_001`).

The JavaScript code is shallowly embedded as follows:

* `Float32Array` logit vectors become `List K` for an ordered ring `K`
  (instantiated at `ℤ`/`ℚ` for executable facts and at `ℝ` where the
  real exponential of the softmax is needed);
* the JavaScript `-Infinity` sentinel placed into the candidate score
  matrix becomes `ScoreVal.negInf`;
* out-of-range array reads, which yield `undefined` in JavaScript, become
  `none : Option _`;
* a thrown exception becomes `Except.error`, and the `try`/`catch` blocks
  of the `runInference` entry points become the conversion of that
  `Except` to an `Option` (`null`/`undefined` results are `none`);
* the tokenizer and the ONNX inference session are external collaborators
  and are passed in as function-valued parameters.
-/

/-! ## JavaScript-array helpers -/

/-- Array lookup at a JavaScript numeric index: out-of-range or negative
indices give `undefined`, modelled as `none`. -/
def getIntOpt {α : Type} (l : List α) (i : Int) : Option α :=
  if 0 ≤ i then l[i.toNat]? else none

/-- `Array.prototype.indexOf`: the index of the first strictly-equal
element, `-1` when the element does not occur. -/
def idxOfJS {α : Type} [DecidableEq α] : List α → α → Int
  | [], _ => -1
  | a :: l, x => if a = x then 0 else (if idxOfJS l x = -1 then -1 else idxOfJS l x + 1)

/-- Resolution of one endpoint of `Array.prototype.slice`: `undefined`
(and the `NaN` produced by `undefined + 1`) resolve to `0`, negative
indices count from the end of the array, and everything is clamped to
the array length. -/
def jsSliceIdx (len : ℕ) : Option Int → ℕ
  | none => 0
  | some v => if v < 0 then ((len : Int) + v).toNat else min v.toNat len

/-- `Array.prototype.slice(s, e)` with possibly-`undefined`/`NaN`
endpoints. -/
def jsSlice {α : Type} (l : List α) (s e : Option Int) : List α :=
  (l.take (jsSliceIdx l.length e)).drop (jsSliceIdx l.length s)

/-- A stable insertion step: `a` is placed in front of the first element
`b` with `le b a`.  Folding it over a list (`sortDescBy`) models the
ECMAScript stable `Array.prototype.sort` with comparator
`(a, b) => key(b) - key(a)`: elements are ordered by strictly greater
key first, and comparator results `0`/`NaN` keep the original order. -/
def insertDescBy {α : Type} (le : α → α → Bool) (a : α) : List α → List α
  | [] => [a]
  | b :: l => if le b a then a :: b :: l else b :: insertDescBy le a l

/-- Stable sort placing larger keys first; see `insertDescBy`. -/
def sortDescBy {α : Type} (le : α → α → Bool) : List α → List α
  | [] => []
  | a :: l => insertDescBy le a (sortDescBy le l)

/-! ## Score values with the `-Infinity` sentinel -/

/-- A JavaScript number that is either an ordinary (finite) value or the
`-Infinity` sentinel assigned to invalid span candidates. -/
inductive ScoreVal (K : Type) where
  | negInf : ScoreVal K
  | val : K → ScoreVal K
deriving DecidableEq

/-- `a <= b` on scores: `-Infinity` is below everything. -/
def svLeB {K : Type} [LinearOrderedCommRing K] : ScoreVal K → ScoreVal K → Bool
  | .negInf, _ => true
  | .val _, .negInf => false
  | .val x, .val y => decide (x ≤ y)

/-- `a < b` on scores; `candidate > -Infinity` is `svLtB .negInf candidate`. -/
def svLtB {K : Type} [LinearOrderedCommRing K] : ScoreVal K → ScoreVal K → Bool
  | .negInf, .val _ => true
  | .negInf, .negInf => false
  | .val _, .negInf => false
  | .val x, .val y => decide (x < y)

/-- Binary `Math.max` on scores. -/
def svMax {K : Type} [LinearOrderedCommRing K] (a b : ScoreVal K) : ScoreVal K :=
  if svLtB a b then b else a

/-- `Math.max(...scores)`: `-Infinity` on the empty array. -/
def svMaxOf {K : Type} [LinearOrderedCommRing K] (l : List (ScoreVal K)) : ScoreVal K :=
  l.foldr svMax ScoreVal.negInf

/-! ## `src/unnamed/part_001` : masking, softmax guard, span decoder -/

/-- `maskUndesiredTokens` (part_001 lines 86-88): replace the logit at
every position whose mask entry is `1` by the `-10000.0` sentinel;
every other position keeps its original logit.  No position is removed.
An out-of-range mask read yields `undefined`, which is `!== 1`. -/
def maskUndesiredTokens {K : Type} [LinearOrderedCommRing K]
    (logits : List K) (undesiredTokens : List ℕ) : List K :=
  logits.enum.map (fun p => if undesiredTokens[p.1]? = some 1 then (-10000 : K) else p.2)

/-- The candidate score matrix of `decodeSpans` (part_001 lines 108-122),
flattened row-major: `outer[idx] = startLogits[idx / m] * endLogits[idx % m]`
(the two nested loops write `outer[i * m + j] = startLogits[i] * endLogits[j]`),
and the subsequent `outer.map((val, idx) => ...)` replaces every entry whose
`(startIdx, endIdx)` pair is invalid by the `-Infinity` sentinel.  A pair is
valid when `endIdx >= startIdx`, `endIdx - startIdx < maxAnswerLength`, and
both mask entries are `0`. -/
def candidatesList {K : Type} [LinearOrderedCommRing K]
    (startLogits endLogits : List K) (maxAnswerLength : ℕ)
    (undesiredTokens : List ℕ) : List (ScoreVal K) :=
  (List.range (startLogits.length * endLogits.length)).map (fun idx =>
    let startIdx := idx / endLogits.length
    let endIdx := idx % endLogits.length
    if startIdx ≤ endIdx ∧ endIdx - startIdx < maxAnswerLength ∧
        undesiredTokens[startIdx]? = some 0 ∧ undesiredTokens[endIdx]? = some 0 then
      ScoreVal.val (startLogits.getD startIdx 0 * endLogits.getD endIdx 0)
    else ScoreVal.negInf)

/-- The predicate of the final filter of `decodeSpans` (part_001 line 137):
`candidates[starts[idx] * m + ends[idx]] > -Infinity`.  An out-of-range read
gives `undefined`, and `undefined > -Infinity` is `false`. -/
def spanFilterPred {K : Type} [LinearOrderedCommRing K]
    (candidates : List (ScoreVal K)) (m : ℕ) (q : Int × Int) : Bool :=
  match getIntOpt candidates (q.1 * (m : Int) + q.2) with
  | some v => svLtB ScoreVal.negInf v
  | none => false

/-- The value returned by `decodeSpans`.  The `starts`/`ends` entries are
`Option Int` because the JavaScript arrays can contain `undefined` (an
out-of-range read of `starts`/`ends`), and a score entry is `none` when
the corresponding `candidates` read was `undefined` (coerced to `NaN` by
the `Float32Array` constructor). -/
structure SpanResult (K : Type) where
  starts : List (Option Int)
  ends : List (Option Int)
  scores : List (Option (ScoreVal K))
deriving DecidableEq

/-- `decodeSpans` (part_001 lines 100-144).

* `candidates` is the sentinel-filtered outer-product score list;
* for `topk === 1` the selected flat index is
  `scoresFlat.indexOf(Math.max(...scoresFlat))`, otherwise the first
  `topk` entries of the stable descending sort of all flat indices;
* `starts`/`ends` are recovered with `Math.floor(idx / m)` (which is
  `Int.fdiv` for `m ≥ 1`) and `idx % m` (the truncating `Int.tmod`);
* `validSpans = starts.filter((_, idx) => candidates[starts[idx]*m+ends[idx]] > -Infinity)`
  keeps the *values* of `starts` at positions whose span is valid
  (rendered here as a filter of `starts.zip ends` projected to the first
  component), and those values are then used as *indices* into
  `starts`/`ends` to build the returned candidate lists. -/
def decodeSpans {K : Type} [LinearOrderedCommRing K]
    (startLogits endLogits : List K) (topk maxAnswerLength : ℕ)
    (undesiredTokens : List ℕ) : SpanResult K :=
  let m := endLogits.length
  let candidates := candidatesList startLogits endLogits maxAnswerLength undesiredTokens
  let idxSort : List Int :=
    if topk = 1 then
      [idxOfJS candidates (svMaxOf candidates)]
    else
      ((sortDescBy (fun a b => svLeB (candidates.getD a ScoreVal.negInf) (candidates.getD b ScoreVal.negInf))
          (List.range (startLogits.length * m))).take topk).map Int.ofNat
  let starts : List Int := idxSort.map (fun idx => Int.fdiv idx (m : Int))
  let ends : List Int := idxSort.map (fun idx => Int.tmod idx (m : Int))
  let validSpans : List Int :=
    ((starts.zip ends).filter (spanFilterPred candidates m)).map (fun q => q.1)
  let filteredStarts := validSpans.map (fun v => getIntOpt starts v)
  let filteredEnds := validSpans.map (fun v => getIntOpt ends v)
  let scores : List (Option (ScoreVal K)) :=
    (filteredStarts.zip filteredEnds).map (fun q =>
      match q.1, q.2 with
      | some a, some b => getIntOpt candidates (a * (m : Int) + b)
      | _, _ => none)
  ⟨filteredStarts, filteredEnds, scores⟩

/-! ## `src/TransformerOps.ts` : max helper, input assembler -/

/-- The `max` helper of `TransformerOps.ts` (lines 71-82): it throws
`Error('Array must not be empty')` on the empty array (modelled as
`none`) and otherwise returns `[max, indexOfMax]`, where `indexOfMax`
is the index of the *first* occurrence of the maximum (the running
maximum is replaced only on a strictly greater element). -/
def maxArrLoop {K : Type} [LinearOrderedCommRing K] (m : K) (mi i : ℕ) : List K → K × ℕ
  | [] => (m, mi)
  | x :: l => if m < x then maxArrLoop x i (i + 1) l else maxArrLoop m mi (i + 1) l

/-- See `maxArrLoop`; `none` models the thrown `Error`. -/
def maxArr {K : Type} [LinearOrderedCommRing K] : List K → Option (K × ℕ)
  | [] => none
  | a :: l => some (maxArrLoop a 0 1 l)

/-- `Math.max(...v)` for a non-empty `v` (every softmax in this
repository applies it to a non-empty vector; the empty case is handled
separately by `softmaxChecked`). -/
def listMax {K : Type} [LinearOrderedCommRing K] : List K → K
  | [] => 0
  | a :: l => l.foldl max a

/-- `product` (`TransformerOps.ts` lines 101-109): all pairs of the two
arrays, built by two nested loops (outer loop over the first array). -/
def product {α β : Type} (array1 : List α) (array2 : List β) : List (α × β) :=
  array1.flatMap (fun item1 => array2.map (fun item2 => (item1, item2)))

/-- `tokenizeQuestionAndContext` (`TransformerOps.ts` lines 111-152).
The tokenizer is an external collaborator, so the already-tokenized
`questionTokens`/`contextTokens` are taken as inputs.  `maxLengthOpt`
is the `maxLength` member of the options object (`none` when absent);
the destructured default is `512`.

The source builds `inputTokens` *before* the truncation block; the
truncation block rebinds the local `questionTokens`/`contextTokens`
variables (kept here as the unused `_questionTokens`/`_contextTokens`)
but never rebuilds `inputTokens`.  The padding block re-reads
`options.maxLength || 512`, so a present-but-zero `maxLength` pads to
`512`. -/
def tokenizeQuestionAndContext (questionTokens contextTokens : List String)
    (padding truncation : Bool) (maxLengthOpt : Option ℕ) : List String :=
  let maxLength := maxLengthOpt.getD 512
  let inputTokens := ["[CLS]"] ++ questionTokens ++ ["[SEP]"] ++ contextTokens ++ ["[SEP]"]
  let totalLength := questionTokens.length + contextTokens.length + 3
  let questionLength := (maxLength - 3) / 2
  let contextLength := maxLength - 3 - questionLength
  let _questionTokens :=
    if truncation ∧ maxLength < totalLength then questionTokens.take questionLength
    else questionTokens
  let _contextTokens :=
    if truncation ∧ maxLength < totalLength then contextTokens.take contextLength
    else contextTokens
  let padTarget := match maxLengthOpt with
    | none => 512
    | some v => if v = 0 then 512 else v
  if padding then inputTokens ++ List.replicate (padTarget - inputTokens.length) "[PAD]"
  else inputTokens

/-! ## Softmax over the reals -/

/-- The numerically-stable softmax shared (up to the empty-array
behaviour, see `softmaxChecked`) by all three source files: subtract
`Math.max(...)`, exponentiate, divide by the sum of the exponentials.
The reduce `(a, b) => a + b` over a non-empty array is the list sum. -/
noncomputable def softmax (logits : List ℝ) : List ℝ :=
  let maxLogit := listMax logits
  let exps := logits.map (fun logit => Real.exp (logit - maxLogit))
  exps.map (fun e2 => e2 / exps.sum)

/-- Softmax with the empty-vector failure made explicit: on `[]` the
`TransformerOps.ts` variant throws `Error('Array must not be empty')`
inside `max`, and the part_001 variant throws a `TypeError` in
`reduce` (no initial value); both are modelled as `none`.
(The part_000 variant passes `0` as the initial reduce value and is
total; it only ever meets non-empty label-logit vectors.) -/
noncomputable def softmaxChecked (logits : List ℝ) : Option (List ℝ) :=
  match logits with
  | [] => none
  | _ => some (softmax logits)

/-! ## `src/unnamed/part_000` : classification resolution -/

/-- `probabilities.indexOf(Math.max(...probabilities))`: the first index
attaining the maximum, `-1` on the empty array (where `Math.max()` is
`-Infinity` and `indexOf` misses). -/
noncomputable def idxOfMax (v : List ℝ) : Int :=
  match v with
  | [] => -1
  | _ => idxOfJS v (listMax v)

/-- The fixed `idToLabel` object of part_000 (line 49); a lookup outside
`0..4` yields `undefined`, i.e. `none`. -/
def idToLabel (i : Int) : Option String :=
  if i = 0 then some ("travel")
  else if i = 1 then some ("career")
  else if i = 2 then some ("financial")
  else if i = 3 then some ("purchase")
  else if i = 4 then some ("sales")
  else none

/-! ## Answer resolution (part_001 lines 216-220, TransformerOps.ts 226-232) -/

/-- `inputTokens.slice(start, end + 1)`: the inclusive token slice of
the selected span (part_001 line 216). -/
def answerSliceTokens (inputTokens : List Int) (s e : ℕ) : List Int :=
  (inputTokens.take (e + 1)).drop s

/-- The part_001 answer resolution (lines 216-220): the inclusive slice
with every occurrence of the separator and classification-start marker
removed; the resulting id list is what is handed to `tokenizer.decode`. -/
def resolveAnswer (clsIdx sepIdx : Int) (inputTokens : List Int) (s e : ℕ) : List Int :=
  (answerSliceTokens inputTokens s e).filter (fun token => token ≠ sepIdx ∧ token ≠ clsIdx)

/-- The `TransformerOps.ts` answer extraction (lines 226-232):
`inputs.slice(start - 1, (end - 1) + 1)` with *no* marker filtering;
the unfiltered ids go straight to `tokenizer.decode`.  (In its calling
context `start > 6`, so the JavaScript negative-index wrap of `slice`
cannot occur; naturals with truncated subtraction match.) -/
def resolveAnswerAlt (inputs : List Int) (s e : ℕ) : List Int :=
  (inputs.take ((e - 1) + 1)).drop (s - 1)

/-! ## The caller-facing operations -/

/-- Lift the modelled softmax failure into the exception monad (the
JavaScript throw happens inside the `try` block). -/
noncomputable def softmaxE (logits : List ℝ) : Except String (List ℝ) :=
  match softmaxChecked logits with
  | some p => Except.ok p
  | none => Except.error ("softmax of empty array")

/-- The undesired-token mask built by the part_001 `runInference`
(lines 186-190): all zero except position `0` (the `[CLS]` marker),
position `qLen + 1` (first `[SEP]`) and position `qLen + cLen + 2`
(final `[SEP]`). -/
def mkUndesiredMask (qLen cLen total : ℕ) : List ℕ :=
  (List.range total).map (fun i =>
    if i = 0 ∨ i = qLen + 1 ∨ i = qLen + cLen + 2 then 1 else 0)

/-- The body of the part_001 `runInference` `try` block (lines 148-224).
`tokenize`, `runModel` (covering `createModelInput` and
`onnxModel.run` with outputs `start_logits`/`end_logits`) and
`decodeIds` (`tokenizer.decode`) are the external collaborators; each
may throw.  The fixed context is the `Austin is the Capital of Texas`
literal; its tokenization is whatever `tokenize` returns for it.
Returns `none` (for `return null`) when no valid span was found. -/
noncomputable def qaInferenceBody
    (tokenize : String → Except String (List Int))
    (runModel : List Int → Except String (List ℝ × List ℝ))
    (decodeIds : List Int → Except String String)
    (clsIdx sepIdx : Int) (question : String) : Except String (Option String) := do
  let tokenizedQuestion ← tokenize question
  let tokenizedContext ← tokenize ("Austin is the Capital of Texas")
  let inputTokens := clsIdx :: (tokenizedQuestion ++ [sepIdx] ++ tokenizedContext ++ [sepIdx])
  let logits ← runModel inputTokens
  let undesiredTokens :=
    mkUndesiredMask tokenizedQuestion.length tokenizedContext.length inputTokens.length
  let maskedStartLogits := maskUndesiredTokens logits.1 undesiredTokens
  let maskedEndLogits := maskUndesiredTokens logits.2 undesiredTokens
  let startProbs ← softmaxE maskedStartLogits
  let endProbs ← softmaxE maskedEndLogits
  let bestSpan := decodeSpans startProbs endProbs 1 30 undesiredTokens
  match bestSpan.starts.head?, bestSpan.ends.head? with
  | some s0, some e0 => do
      let answerTokens := jsSlice inputTokens s0 (e0.map (fun v => v + 1))
      let answer ← decodeIds (answerTokens.filter (fun token => token ≠ sepIdx ∧ token ≠ clsIdx))
      pure (some answer)
  | _, _ => pure none

/-- The part_001 `runInference` (lines 146-229): the `try` body with the
`catch` clause that logs and returns `null` on any thrown error. -/
noncomputable def runInferenceQA
    (tokenize : String → Except String (List Int))
    (runModel : List Int → Except String (List ℝ × List ℝ))
    (decodeIds : List Int → Except String String)
    (clsIdx sepIdx : Int) (question : String) : Option String :=
  match qaInferenceBody tokenize runModel decodeIds clsIdx sepIdx question with
  | Except.ok v => v
  | Except.error _ => none

/-- The value of the `TransformerOps.ts` `runInference` (line 241):
either the single best answer (`topk === 1`) or the whole list of
`{answer, score}` records. -/
inductive TfOut where
  | one (answer : String)
  | many (answers : List (String × ℝ))

/-- The body of the `TransformerOps.ts` `runInference` `try` block
(lines 186-241).  The source inlines a fixed receipt-text literal as
the context; it is opaque to the external `tokenize` and is taken here
as the `contextText` argument.  The batch loop
`for j < start_logits.dims[0]` runs once for the single-batch model
output delivered by `runModel`.
`s1`/`e1` pair each softmaxed probability with its index and keep only
indices `> 6`; `options` filters pairs to `start <= end`, scores them
by the probability product and stable-sorts by descending score; for
each of the first `topk` options the answer text is decoded from
`inputs.slice(start - 1, end)` (both endpoints shifted down by one,
no marker filtering).  With `topk === 1` and no options,
`toReturn[0].answer` throws a `TypeError`. -/
noncomputable def tfInferenceBody
    (tokenize : String → Except String (List Int))
    (runModel : List Int → Except String (List ℝ × List ℝ))
    (decodeIds : List Int → Except String String)
    (clsIdx sepIdx : Int) (contextText question : String) (topk : ℕ) :
    Except String TfOut := do
  let tokenizedQuestion ← tokenize question
  let tokenizedContext ← tokenize contextText
  let inputs := clsIdx :: (tokenizedQuestion ++ [sepIdx] ++ tokenizedContext ++ [sepIdx])
  let output ← runModel inputs
  let startProbs ← softmaxE output.1
  let endProbs ← softmaxE output.2
  let s1 := (startProbs.enum.map (fun p => (p.2, p.1))).filter (fun x => 6 < x.2)
  let e1 := (endProbs.enum.map (fun p => (p.2, p.1))).filter (fun x => 6 < x.2)
  let options :=
    sortDescBy (fun a b => decide (a.2.2 ≤ b.2.2))
      (((product s1 e1).filter (fun x => x.1.2 ≤ x.2.2)).map
        (fun x => (x.1.2, x.2.2, x.1.1 * x.2.1)))
  let toReturn ← (options.take topk).mapM (fun t => do
    let answerTokens := (inputs.take ((t.2.1 - 1) + 1)).drop (t.1 - 1)
    let answer ← decodeIds answerTokens
    pure (answer, t.2.2))
  if topk = 1 then
    match toReturn.head? with
    | some p => pure (TfOut.one p.1)
    | none => Except.error ("TypeError: cannot read property answer of undefined")
  else
    pure (TfOut.many toReturn)

/-- The `TransformerOps.ts` `runInference` (lines 153-246): `try` body
plus the `catch` that returns `null`. -/
noncomputable def runInferenceTopk
    (tokenize : String → Except String (List Int))
    (runModel : List Int → Except String (List ℝ × List ℝ))
    (decodeIds : List Int → Except String String)
    (clsIdx sepIdx : Int) (contextText question : String) (topk : ℕ) : Option TfOut :=
  match tfInferenceBody tokenize runModel decodeIds clsIdx sepIdx contextText question topk with
  | Except.ok v => some v
  | Except.error _ => none

/-- The body of the part_000 `runInference` `try` block (lines 28-52):
tokenize, run the classifier (`createModelInput` plus `onnxModel.run`
with output `logits`, both folded into `runModel`), softmax (the
part_000 softmax passes `0` as the reduce seed and is total), take the
argmax index and look it up in `idToLabel`.  The lookup of an index
outside `0..4` yields `undefined` (`none`), which is returned as-is. -/
noncomputable def clsInferenceBody
    (tokenize : String → Except String (List Int))
    (runModel : List Int → Except String (List ℝ))
    (input : String) : Except String (Option String) := do
  let tokenizedInput ← tokenize input
  let logitsArray ← runModel tokenizedInput
  let probabilities := softmax logitsArray
  let predictedLabelIndex := idxOfMax probabilities
  pure (idToLabel predictedLabelIndex)

/-- The part_000 `runInference` (lines 25-57): the falsy-input early
return (`if (!input) return;`), then the `try` body with the `catch`
that logs and returns `undefined`. -/
noncomputable def runInferenceClassify
    (tokenize : String → Except String (List Int))
    (runModel : List Int → Except String (List ℝ))
    (input : String) : Option String :=
  if input = "" then none
  else
    match clsInferenceBody tokenize runModel input with
    | Except.ok v => v
    | Except.error _ => none

/-! ## Helper lemmas -/

theorem getIntOpt_mem {α : Type} {l : List α} {i : Int} {a : α}
    (h : getIntOpt l i = some a) : a ∈ l := by
  unfold getIntOpt at h
  split at h
  · exact List.getElem?_mem h
  · cases h

theorem candidatesList_all_negInf {K : Type} [LinearOrderedCommRing K]
    {startLogits endLogits : List K} {maxAnswerLength : ℕ} {undesiredTokens : List ℕ}
    (hinv : ∀ i j, i < startLogits.length → j < endLogits.length →
      ¬(i ≤ j ∧ j - i < maxAnswerLength ∧
        undesiredTokens[i]? = some 0 ∧ undesiredTokens[j]? = some 0)) :
    ∀ x ∈ candidatesList startLogits endLogits maxAnswerLength undesiredTokens,
      x = ScoreVal.negInf := by
  intro x hx
  simp only [candidatesList, List.mem_map, List.mem_range] at hx
  obtain ⟨idx, hidx, rfl⟩ := hx
  have hm : 0 < endLogits.length := by
    rcases Nat.eq_zero_or_pos endLogits.length with h0 | h0
    · rw [h0, Nat.mul_zero] at hidx
      exact absurd hidx (Nat.not_lt_zero _)
    · exact h0
  have hi : idx / endLogits.length < startLogits.length :=
    (Nat.div_lt_iff_lt_mul hm).mpr hidx
  have hj : idx % endLogits.length < endLogits.length := Nat.mod_lt _ hm
  exact if_neg (hinv _ _ hi hj)

theorem maskUndesiredTokens_getElem {K : Type} [LinearOrderedCommRing K]
    (logits : List K) (undesiredTokens : List ℕ) (i : ℕ) :
    (maskUndesiredTokens logits undesiredTokens)[i]? =
      (logits[i]?).map (fun x => if undesiredTokens[i]? = some 1 then (-10000 : K) else x) := by
  unfold maskUndesiredTokens
  rw [List.getElem?_map, List.getElem?_enum]
  cases logits[i]? <;> rfl

/-! ## Claims about the span decoder and its callers -/

/-- C1: every candidate returned by `decodeSpans` was claimed to satisfy
`end >= start`, `end - start < maxAnswerLength`, have unmasked endpoints
and a non-sentinel score.  The code violates this: with start/end logits
`[1, 2]`, mask `[1, 0]` (position `0` undesired) and `topk = 2`, the
only valid pair is `(1, 1)` (flat index `3`), yet the decoder returns
the single candidate `(0, 0)` — whose start and end are masked — with
the `-Infinity` sentinel score, because the final filter uses the kept
start *values* as indices into `starts`/`ends`. -/
theorem decodeSpans_returns_masked_sentinel_candidate :
    (decodeSpans [(1 : ℤ), 2] [1, 2] 2 30 [1, 0]).starts = [some 0]
    ∧ (decodeSpans [(1 : ℤ), 2] [1, 2] 2 30 [1, 0]).ends = [some 0]
    ∧ (decodeSpans [(1 : ℤ), 2] [1, 2] 2 30 [1, 0]).scores = [some ScoreVal.negInf]
    ∧ ([1, 0] : List ℕ)[0]? = some 1 := by
  decide

/-- C2: the assembled sequence was claimed to be truncated to at most
`maxLength` tokens.  The code builds `inputTokens` before the truncation
block and never rebuilds it, so with 4 question tokens, 4 context tokens
and `maxLength = 8` (total `4 + 4 + 3 = 11 > 8`) the returned sequence
still has all 11 tokens. -/
theorem tokenizeQuestionAndContext_ignores_truncation :
    (tokenizeQuestionAndContext ["q1", "q2", "q3", "q4"] ["c1", "c2", "c3", "c4"]
        true true (some 8)).length = 11
    ∧ 8 < (tokenizeQuestionAndContext ["q1", "q2", "q3", "q4"] ["c1", "c2", "c3", "c4"]
        true true (some 8)).length := by
  decide

/-- C3: with `topk = 1` the selection stage does pick the global
maximum with the claimed row-major tie-break — here flat index `3`,
i.e. the pair `(1, 1)` — but the decoder does not return that pair:
the final filter looks up `starts[1]`/`ends[1]` in the singleton
`starts`/`ends` arrays, so the returned candidate has `undefined`
start, end and score. -/
theorem decodeSpans_topk1_returns_undefined :
    idxOfJS (candidatesList [(1 : ℤ), 2] [1, 2] 30 [1, 0])
        (svMaxOf (candidatesList [(1 : ℤ), 2] [1, 2] 30 [1, 0])) = 3
    ∧ candidatesList [(1 : ℤ), 2] [1, 2] 30 [1, 0]
        = [ScoreVal.negInf, ScoreVal.negInf, ScoreVal.negInf, ScoreVal.val 4]
    ∧ (decodeSpans [(1 : ℤ), 2] [1, 2] 1 30 [1, 0]).starts = [none]
    ∧ (decodeSpans [(1 : ℤ), 2] [1, 2] 1 30 [1, 0]).ends = [none]
    ∧ (decodeSpans [(1 : ℤ), 2] [1, 2] 1 30 [1, 0]).scores = [none] := by
  decide

/-- C4: when no `(start, end)` pair is valid, `decodeSpans` returns the
empty candidate lists (not an error): every candidate score is the
sentinel, so every read the final filter performs yields either the
sentinel or `undefined`, and the filter keeps nothing. -/
theorem decodeSpans_all_invalid {K : Type} [LinearOrderedCommRing K]
    (startLogits endLogits : List K) (topk maxAnswerLength : ℕ) (undesiredTokens : List ℕ)
    (hinv : ∀ i j, i < startLogits.length → j < endLogits.length →
      ¬(i ≤ j ∧ j - i < maxAnswerLength ∧
        undesiredTokens[i]? = some 0 ∧ undesiredTokens[j]? = some 0)) :
    decodeSpans startLogits endLogits topk maxAnswerLength undesiredTokens = ⟨[], [], []⟩ := by
  have hbot := candidatesList_all_negInf hinv
  have hpred : ∀ q : Int × Int,
      spanFilterPred (candidatesList startLogits endLogits maxAnswerLength undesiredTokens)
        endLogits.length q = false := by
    intro q
    unfold spanFilterPred
    cases hval : getIntOpt (candidatesList startLogits endLogits maxAnswerLength undesiredTokens)
        (q.1 * (endLogits.length : Int) + q.2) with
    | none => rfl
    | some v => rw [hbot v (getIntOpt_mem hval)]; rfl
  have hfil : ∀ L : List (Int × Int),
      List.filter (spanFilterPred
        (candidatesList startLogits endLogits maxAnswerLength undesiredTokens)
        endLogits.length) L = [] :=
    fun L => List.filter_eq_nil_iff.mpr (fun a _ => by simp [hpred a])
  simp only [decodeSpans]
  simp [hfil]

/-- Witness for C4 at a concrete input: a single position whose mask
entry is `1` admits no valid pair, and the decoder returns empty lists. -/
theorem decodeSpans_all_invalid_witness :
    (∀ i j, i < [(1 : ℤ)].length → j < [(1 : ℤ)].length →
      ¬(i ≤ j ∧ j - i < 30 ∧ ([1] : List ℕ)[i]? = some 0 ∧ ([1] : List ℕ)[j]? = some 0))
    ∧ decodeSpans [(1 : ℤ)] [1] 1 30 [1] = ⟨[], [], []⟩ := by
  have hinv : ∀ i j, i < [(1 : ℤ)].length → j < [(1 : ℤ)].length →
      ¬(i ≤ j ∧ j - i < 30 ∧ ([1] : List ℕ)[i]? = some 0 ∧ ([1] : List ℕ)[j]? = some 0) := by
    intro i j hi hj
    have hi1 : i = 0 := Nat.lt_one_iff.mp hi
    have hj1 : j = 0 := Nat.lt_one_iff.mp hj
    subst hi1
    subst hj1
    decide
  exact ⟨hinv, decodeSpans_all_invalid _ _ _ _ _ hinv⟩

/-- C5: `maskUndesiredTokens` keeps the vector length and, position by
position, replaces a `1`-masked logit by the `-10000` sentinel and keeps
a `0`-masked logit unchanged. -/
theorem maskUndesiredTokens_spec {K : Type} [LinearOrderedCommRing K]
    (logits : List K) (undesiredTokens : List ℕ)
    (_h : undesiredTokens.length = logits.length) :
    (maskUndesiredTokens logits undesiredTokens).length = logits.length
    ∧ ∀ i, i < logits.length →
        (undesiredTokens[i]? = some 1 →
          (maskUndesiredTokens logits undesiredTokens)[i]? = some (-10000 : K))
        ∧ (undesiredTokens[i]? = some 0 →
          (maskUndesiredTokens logits undesiredTokens)[i]? = logits[i]?) := by
  constructor
  · simp [maskUndesiredTokens]
  · intro i hi
    rw [List.getElem?_eq_getElem hi] at *
    constructor
    · intro h1
      rw [maskUndesiredTokens_getElem, List.getElem?_eq_getElem hi]
      simp [h1]
    · intro h0
      rw [maskUndesiredTokens_getElem, List.getElem?_eq_getElem hi]
      simp [h0]

/-- Witness for C5 at `logits = [5, 7]`, mask `[1, 0]`. -/
theorem maskUndesiredTokens_spec_witness :
    (([1, 0] : List ℕ).length = [(5 : ℤ), 7].length)
    ∧ ((maskUndesiredTokens [(5 : ℤ), 7] [1, 0]).length = [(5 : ℤ), 7].length
      ∧ ∀ i, i < [(5 : ℤ), 7].length →
          (([1, 0] : List ℕ)[i]? = some 1 →
            (maskUndesiredTokens [(5 : ℤ), 7] [1, 0])[i]? = some (-10000 : ℤ))
          ∧ (([1, 0] : List ℕ)[i]? = some 0 →
            (maskUndesiredTokens [(5 : ℤ), 7] [1, 0])[i]? = [(5 : ℤ), 7][i]?)) :=
  ⟨by decide, maskUndesiredTokens_spec _ _ (by decide)⟩

/-! ## Softmax lemmas -/

theorem foldlMax_mem {K : Type} [LinearOrderedCommRing K] (l : List K) (a : K) :
    l.foldl max a ∈ a :: l := by
  induction l generalizing a with
  | nil => simp
  | cons b l ih =>
    simp only [List.foldl_cons]
    rcases List.mem_cons.mp (ih (max a b)) with h1 | h1
    · rw [h1]
      rcases max_choice a b with hab | hab <;> rw [hab] <;> simp
    · exact List.mem_cons_of_mem _ (List.mem_cons_of_mem _ h1)

theorem listMax_mem {K : Type} [LinearOrderedCommRing K] (v : List K) (hv : v ≠ []) :
    listMax v ∈ v := by
  cases v with
  | nil => exact absurd rfl hv
  | cons a l => exact foldlMax_mem l a

theorem sum_map_div (l : List ℝ) (c : ℝ) :
    (l.map (fun x => x / c)).sum = l.sum / c := by
  induction l with
  | nil => simp
  | cons a l ih => simp [ih, add_div]

theorem softmax_eq_map (v : List ℝ) :
    softmax v = v.map (fun x =>
      Real.exp (x - listMax v) / (v.map (fun w => Real.exp (w - listMax v))).sum) := by
  simp only [softmax, List.map_map]
  rfl

theorem softmax_expsum_pos (v : List ℝ) (hv : v ≠ []) :
    0 < (v.map (fun w => Real.exp (w - listMax v))).sum := by
  apply List.sum_pos
  · intro x hx
    obtain ⟨w, _, rfl⟩ := List.mem_map.mp hx
    exact Real.exp_pos _
  · simpa [List.map_eq_nil_iff] using hv

theorem softmax_expsum_ge_one (v : List ℝ) (hv : v ≠ []) :
    1 ≤ (v.map (fun w => Real.exp (w - listMax v))).sum := by
  have hmem : Real.exp (listMax v - listMax v) ∈ v.map (fun w => Real.exp (w - listMax v)) :=
    List.mem_map_of_mem _ (listMax_mem v hv)
  rw [sub_self, Real.exp_zero] at hmem
  exact List.single_le_sum (fun x hx2 => by
    obtain ⟨w, _, rfl⟩ := List.mem_map.mp hx2
    exact (Real.exp_pos _).le) 1 hmem

theorem exp_twenty_gt : (1000000 : ℝ) < Real.exp 20 := by
  have h1 : (2.7182818283 : ℝ) ^ (20 : ℕ) < Real.exp 1 ^ (20 : ℕ) :=
    pow_lt_pow_left₀ Real.exp_one_gt_d9 (by norm_num) (by norm_num)
  have h2 : (1000000 : ℝ) < (2.7182818283 : ℝ) ^ (20 : ℕ) := by norm_num
  have h3 : Real.exp 1 ^ (20 : ℕ) = Real.exp 20 := by
    rw [Real.exp_one_pow]
    norm_num
  linarith

/-! ## Classification argmax lemmas -/

theorem foldlMax_map_mono {f : ℝ → ℝ} (hf : Monotone f) (l : List ℝ) (a : ℝ) :
    (l.map f).foldl max (f a) = f (l.foldl max a) := by
  induction l generalizing a with
  | nil => rfl
  | cons b l ih =>
    simp only [List.map_cons, List.foldl_cons]
    rw [← hf.map_max, ih]

theorem listMax_map_mono {f : ℝ → ℝ} (hf : Monotone f) (v : List ℝ) (hv : v ≠ []) :
    listMax (v.map f) = f (listMax v) := by
  cases v with
  | nil => exact absurd rfl hv
  | cons a l =>
    simp only [List.map_cons, listMax]
    exact foldlMax_map_mono hf l a

theorem idxOfJS_map_inj {α β : Type} [DecidableEq α] [DecidableEq β]
    {f : α → β} (hf : Function.Injective f) (l : List α) (x : α) :
    idxOfJS (l.map f) (f x) = idxOfJS l x := by
  induction l with
  | nil => rfl
  | cons a l ih =>
    by_cases h : a = x
    · subst h
      simp [idxOfJS]
    · have hfa : ¬(f a = f x) := fun hc => h (hf hc)
      simp only [List.map_cons, idxOfJS, if_neg h, if_neg hfa, ih]

theorem idxOfMax_softmax (v : List ℝ) : idxOfMax (softmax v) = idxOfMax v := by
  cases v with
  | nil => rfl
  | cons a l =>
    have hv : (a :: l : List ℝ) ≠ [] := by simp
    have hS : 0 < ((a :: l).map (fun w => Real.exp (w - listMax (a :: l)))).sum :=
      softmax_expsum_pos _ hv
    set M := listMax (a :: l) with hM
    set S := ((a :: l).map (fun w => Real.exp (w - M))).sum with hSdef
    set f : ℝ → ℝ := fun x => Real.exp (x - M) / S with hfdef
    have hmono : StrictMono f := by
      intro x y hxy
      have h1 : Real.exp (x - M) < Real.exp (y - M) := Real.exp_lt_exp.mpr (by linarith)
      exact (div_lt_div_iff_of_pos_right hS).mpr h1
    have hmap : softmax (a :: l) = (a :: l).map f := softmax_eq_map (a :: l)
    have hne : softmax (a :: l) ≠ [] := by
      rw [hmap]
      simp
    rw [idxOfMax, idxOfMax] <;>
      first
        | exact fun hcon => hv hcon
        | exact fun hcon => hne hcon
        | rw [hmap, listMax_map_mono hmono.monotone _ hv, idxOfJS_map_inj hmono.injective]

/-- Helper: with successfully-responding collaborators, the classifier
returns exactly the `idToLabel` lookup of the argmax of the softmaxed
logits. -/
theorem runInferenceClassify_ok (tq : List Int) (v : List ℝ) (input : String)
    (h0 : input ≠ "") :
    runInferenceClassify (fun _ => Except.ok tq) (fun _ => Except.ok v) input
      = idToLabel (idxOfMax (softmax v)) := by
  unfold runInferenceClassify
  rw [if_neg h0]
  rfl

/-- C6 (amended): for every non-empty real input vector the softmax
output has the input's length, entries in `[0, 1]` and sum exactly `1`;
a position holding the `-10000` masking sentinel gets probability below
`10⁻⁶` **provided** the vector maximum is at least `-9980` (some
unmasked entry dominates the sentinel; the all-masked vector refutes
the unconditional claim, see the counterexample). -/
theorem softmax_distribution (v : List ℝ) (hv : v ≠ []) :
    (softmax v).length = v.length
    ∧ (∀ x ∈ softmax v, 0 ≤ x ∧ x ≤ 1)
    ∧ (softmax v).sum = 1
    ∧ ∀ i : ℕ, v[i]? = some (-10000) → (-9980 : ℝ) ≤ listMax v →
        ∀ y : ℝ, (softmax v)[i]? = some y → y < 1 / 1000000 := by
  have hS := softmax_expsum_pos v hv
  have hS1 := softmax_expsum_ge_one v hv
  refine ⟨by simp [softmax], ?_, ?_, ?_⟩
  · intro x hx
    rw [softmax_eq_map] at hx
    obtain ⟨w, hw, rfl⟩ := List.mem_map.mp hx
    refine ⟨div_nonneg (Real.exp_pos _).le hS.le, ?_⟩
    rw [div_le_one hS]
    refine List.single_le_sum (fun x hx2 => ?_) _ (List.mem_map_of_mem _ hw)
    obtain ⟨u, _, rfl⟩ := List.mem_map.mp hx2
    exact (Real.exp_pos _).le
  · have hform : softmax v = (v.map (fun w => Real.exp (w - listMax v))).map
        (fun e2 => e2 / (v.map (fun w => Real.exp (w - listMax v))).sum) := rfl
    rw [hform, sum_map_div, div_self (ne_of_gt hS)]
  · intro i hvi hM y hy
    rw [softmax_eq_map, List.getElem?_map, hvi] at hy
    simp only [Option.map_some'] at hy
    obtain rfl := Option.some.inj hy
    have h1 : Real.exp ((-10000 : ℝ) - listMax v)
          / (v.map (fun w => Real.exp (w - listMax v))).sum
        ≤ Real.exp ((-10000 : ℝ) - listMax v) := div_le_self (Real.exp_pos _).le hS1
    have h2 : Real.exp ((-10000 : ℝ) - listMax v) ≤ Real.exp (-20 : ℝ) :=
      Real.exp_le_exp.mpr (by linarith)
    have h3 : Real.exp (-20 : ℝ) < 1 / 1000000 := by
      rw [Real.exp_neg, one_div]
      exact inv_strictAnti₀ (by norm_num) exp_twenty_gt
    linarith

/-- C6 counterexample: on the all-masked vector `[-10000]` the masked
position receives probability `1`, which is not below the claimed small
threshold — the unconditional threshold claim is false. -/
theorem softmax_all_masked_not_small :
    softmax [(-10000 : ℝ)] = [1] ∧ ¬((1 : ℝ) < 1 / 1000000) := by
  constructor
  · simp [softmax, listMax]
  · norm_num

/-- Witness for C6 at `v = [0, -10000]`. -/
theorem softmax_distribution_witness :
    ([(0 : ℝ), -10000] ≠ ([] : List ℝ))
    ∧ ((softmax [(0 : ℝ), -10000]).length = ([(0 : ℝ), -10000] : List ℝ).length
      ∧ (∀ x ∈ softmax [(0 : ℝ), -10000], 0 ≤ x ∧ x ≤ 1)
      ∧ (softmax [(0 : ℝ), -10000]).sum = 1
      ∧ ∀ i : ℕ, ([(0 : ℝ), -10000] : List ℝ)[i]? = some (-10000) →
          (-9980 : ℝ) ≤ listMax [(0 : ℝ), -10000] →
          ∀ y : ℝ, (softmax [(0 : ℝ), -10000])[i]? = some y → y < 1 / 1000000) :=
  ⟨by simp, softmax_distribution [(0 : ℝ), -10000] (by simp)⟩

/-- C10: the softmax of this repository is only defined on non-empty
vectors: on `[]` the `max` helper of `TransformerOps.ts` throws
(`maxArr [] = none`) and the part_001 no-initial-value `reduce` throws
(`softmaxChecked [] = none`); under the non-emptiness precondition the
failure branch is unreachable and the softmax value is returned. -/
theorem softmaxChecked_empty_guard :
    softmaxChecked [] = none ∧ maxArr ([] : List ℝ) = none
    ∧ ∀ v : List ℝ, v ≠ [] → softmaxChecked v = some (softmax v) := by
  refine ⟨rfl, rfl, fun v hv => ?_⟩
  cases v with
  | nil => exact absurd rfl hv
  | cons a l => rfl

/-- Witness for C10 at `v = [0]`. -/
theorem softmaxChecked_empty_guard_witness :
    ([(0 : ℝ)] ≠ ([] : List ℝ)) ∧ softmaxChecked [(0 : ℝ)] = some (softmax [(0 : ℝ)]) :=
  ⟨by simp, softmaxChecked_empty_guard.2.2 [(0 : ℝ)] (by simp)⟩

/-- C7: none of the three `runInference` entry points lets an internal
exception escape: whenever the `try` body fails with any error, the
operation returns the absent result (`null`/`undefined`, i.e. `none`). -/
theorem runInference_absorbs_errors
    (tokenize : String → Except String (List Int))
    (runModel : List Int → Except String (List ℝ × List ℝ))
    (decodeIds : List Int → Except String String)
    (clsTokenize : String → Except String (List Int))
    (clsModel : List Int → Except String (List ℝ))
    (clsIdx sepIdx : Int) (contextText question input : String) (topk : ℕ)
    (e1 e2 e3 : String) :
    (qaInferenceBody tokenize runModel decodeIds clsIdx sepIdx question = Except.error e1 →
      runInferenceQA tokenize runModel decodeIds clsIdx sepIdx question = none)
    ∧ (tfInferenceBody tokenize runModel decodeIds clsIdx sepIdx contextText question topk
        = Except.error e2 →
      runInferenceTopk tokenize runModel decodeIds clsIdx sepIdx contextText question topk = none)
    ∧ (clsInferenceBody clsTokenize clsModel input = Except.error e3 →
      runInferenceClassify clsTokenize clsModel input = none) := by
  refine ⟨?_, ?_, ?_⟩ <;> intro h
  · unfold runInferenceQA
    rw [h]
  · unfold runInferenceTopk
    rw [h]
  · unfold runInferenceClassify
    by_cases h0 : input = ""
    · rw [if_pos h0]
    · rw [if_neg h0, h]

/-- Witness for C7: a failing tokenizer makes each body fail, and each
entry point returns the absent result. -/
theorem runInference_absorbs_errors_witness :
    runInferenceQA (fun _ => Except.error ("tokenizer failed"))
      (fun _ => Except.error ("unused")) (fun _ => Except.error ("unused"))
      101 102 ("q") = none
    ∧ runInferenceTopk (fun _ => Except.error ("tokenizer failed"))
      (fun _ => Except.error ("unused")) (fun _ => Except.error ("unused"))
      101 102 ("ctx") ("q") 1 = none
    ∧ runInferenceClassify (fun _ => Except.error ("tokenizer failed"))
      (fun _ => Except.error ("unused")) ("text") = none := by
  obtain ⟨h1, h2, h3⟩ := runInference_absorbs_errors
    (fun _ => Except.error ("tokenizer failed"))
    (fun _ => Except.error ("unused")) (fun _ => Except.error ("unused"))
    (fun _ => Except.error ("tokenizer failed")) (fun _ => Except.error ("unused"))
    101 102 ("ctx") ("q") ("text") 1
    ("tokenizer failed") ("tokenizer failed") ("tokenizer failed")
  exact ⟨h1 rfl, h2 rfl, h3 rfl⟩

/-- C8 (amended): the classification result is the `idToLabel` lookup
of the argmax index of the softmaxed logits (and that argmax coincides
with the raw-logit argmax); index `2` maps to `financial`.  An index
outside `0..4` yields `undefined` (`none`) — the *same* absent value as
an internal failure, not a distinguished `ConfigurationError` (see
counterexample). -/
theorem runInferenceClassify_label_lookup (tq : List Int) (v : List ℝ) (input : String)
    (h0 : input ≠ "") :
    runInferenceClassify (fun _ => Except.ok tq) (fun _ => Except.ok v) input
      = idToLabel (idxOfMax (softmax v))
    ∧ idToLabel 2 = some ("financial")
    ∧ idToLabel 5 = none
    ∧ idxOfMax (softmax v) = idxOfMax v :=
  ⟨runInferenceClassify_ok tq v input h0, by decide, by decide, idxOfMax_softmax v⟩

/-- Witness for C8: logits `[0, 0, 1]` have argmax `2` and the classifier
returns `financial` (end-to-end scenario 3). -/
theorem runInferenceClassify_label_lookup_witness :
    (("x" : String) ≠ "")
    ∧ runInferenceClassify (fun _ => Except.ok [1]) (fun _ => Except.ok [(0 : ℝ), 0, 1]) ("x")
        = some ("financial") := by
  have h := runInferenceClassify_label_lookup [1] [(0 : ℝ), 0, 1] ("x") (by decide)
  refine ⟨by decide, ?_⟩
  rw [h.1, h.2.2.2]
  have h01 : max (0 : ℝ) 1 = 1 := max_eq_right zero_le_one
  have hlm : listMax [(0 : ℝ), 0, 1] = 1 := by
    simp [listMax, List.foldl, max_self, h01]
  have hidx2 : idxOfJS [(0 : ℝ), 0, 1] (1 : ℝ) = 2 := by norm_num [idxOfJS]
  have hidx : idxOfMax [(0 : ℝ), 0, 1] = 2 := by
    show idxOfJS [(0 : ℝ), 0, 1] (listMax [(0 : ℝ), 0, 1]) = 2
    rw [hlm]
    exact hidx2
  rw [hidx]
  decide

/-- C8 counterexample: an argmax index outside the label map (index `5`
of a six-logit vector) makes the classifier return `none` — exactly the
value returned when the inference stage fails — so the out-of-domain
case is *not* distinguished from a normal absent result, and no
`ConfigurationError` exists in the code. -/
theorem runInferenceClassify_out_of_range_absent :
    runInferenceClassify (fun _ => Except.ok [1])
      (fun _ => Except.ok [(0 : ℝ), 0, 0, 0, 0, 1]) ("x") = none
    ∧ runInferenceClassify (fun _ => Except.ok [1])
      (fun _ => (Except.error ("inference failed") : Except String (List ℝ))) ("x") = none := by
  constructor
  · rw [runInferenceClassify_ok [1] [(0 : ℝ), 0, 0, 0, 0, 1] ("x") (by decide)]
    rw [idxOfMax_softmax]
    have h01 : max (0 : ℝ) 1 = 1 := max_eq_right zero_le_one
    have hlm : listMax [(0 : ℝ), 0, 0, 0, 0, 1] = 1 := by
      simp [listMax, List.foldl, max_self, h01]
    have hidx2 : idxOfJS [(0 : ℝ), 0, 0, 0, 0, 1] (1 : ℝ) = 5 := by norm_num [idxOfJS]
    have hidx : idxOfMax [(0 : ℝ), 0, 0, 0, 0, 1] = 5 := by
      show idxOfJS [(0 : ℝ), 0, 0, 0, 0, 1] (listMax [(0 : ℝ), 0, 0, 0, 0, 1]) = 5
      rw [hlm]
      exact hidx2
    rw [hidx]
    decide
  · rfl

/-- C9 (amended): the part_001 resolver takes exactly the inclusive
sub-sequence `inputTokens[s .. e]` (characterised position by position),
removes every separator / classification-start marker from it, and the
filtered list is what is passed to `decode`.  The superseded
`TransformerOps.ts` variant instead takes `inputTokens[s-1 .. e-1]` and
passes it to `decode` unfiltered (see the counterexample). -/
theorem resolveAnswer_spec (clsIdx sepIdx : Int) (inputTokens : List Int) (s e : ℕ) :
    (∀ t ∈ resolveAnswer clsIdx sepIdx inputTokens s e, t ≠ clsIdx ∧ t ≠ sepIdx)
    ∧ (∀ k, (answerSliceTokens inputTokens s e)[k]? =
        if s + k < e + 1 then inputTokens[s + k]? else none)
    ∧ resolveAnswer clsIdx sepIdx inputTokens s e =
        (answerSliceTokens inputTokens s e).filter
          (fun token => token ≠ sepIdx ∧ token ≠ clsIdx)
    ∧ (∀ k, (resolveAnswerAlt inputTokens s e)[k]? =
        if (s - 1) + k < (e - 1) + 1 then inputTokens[(s - 1) + k]? else none) := by
  refine ⟨?_, ?_, rfl, ?_⟩
  · intro t ht
    have h2 : t ≠ sepIdx ∧ t ≠ clsIdx := by simpa using List.of_mem_filter ht
    exact ⟨h2.2, h2.1⟩
  · intro k
    unfold answerSliceTokens
    rw [List.getElem?_drop, List.getElem?_take]
  · intro k
    unfold resolveAnswerAlt
    rw [List.getElem?_drop, List.getElem?_take]

/-- Witness for C9 at `inputTokens = [101, 7, 102]`, span `(1, 1)`
(`101`/`102` playing the classification-start / separator ids). -/
theorem resolveAnswer_spec_witness :
    (7 : Int) ∈ resolveAnswer 101 102 [101, 7, 102] 1 1
    ∧ ((7 : Int) ≠ 101 ∧ (7 : Int) ≠ 102)
    ∧ (answerSliceTokens [101, 7, 102] 1 1)[0]? =
        (if 1 + 0 < 1 + 1 then ([101, 7, 102] : List Int)[1 + 0]? else none) := by
  have h := resolveAnswer_spec 101 102 [101, 7, 102] 1 1
  exact ⟨by decide, h.1 7 (by decide), h.2.1 0⟩

/-- C9 counterexample: at span `(1, 1)` in `[101, 7, 102]` the
`TransformerOps.ts` resolver returns `[101]` — the shifted slice
`[s-1 .. e-1]`, still containing the marker `101` — rather than the
claimed marker-free inclusive slice `[7]` (which the part_001 resolver
produces). -/
theorem resolveAnswerAlt_keeps_marker :
    resolveAnswerAlt [101, 7, 102] 1 1 = [101]
    ∧ (101 : Int) ∈ resolveAnswerAlt [101, 7, 102] 1 1
    ∧ resolveAnswer 101 102 [101, 7, 102] 1 1 = [7] := by
  decide
